import Mathlib

/-!
# revmgo: session lifecycle hooks and the ObjectId binder

A shallow embedding of `src/revmgo.go` (package `revmgo`).

The program is glue between the revel web framework and the mgo MongoDB
driver.  Its own code is embedded function by function (`AppInit`,
`MethodError`, `MongoController.Begin`, `MongoController.End`,
`ObjectIdBinder.Bind`, `ObjectIdBinder.Unbind`).  What it calls in other
packages is handled in two ways:

* pure library functions whose result the program branches on
  (`bson.IsObjectIdHex`, `bson.ObjectIdHex`, `bson.ObjectId.Hex`, which are
  thin wrappers over `encoding/hex`) are embedded from the library code;
* calls that reach outside the process (`revel.Config.String`, `mgo.Dial`,
  `Session.Clone/Copy/New/Close`) are results supplied by an environment
  `Env`, and every such call is recorded in a trace.

Go strings are byte sequences, so `GoString` is a list of bytes; `len` is the
length of that list.  A nil pointer is `none`.
-/

namespace Revmgo

/-! ## Go strings -/

/-- A Go `byte`: arithmetic on it wraps modulo 256. -/
abbrev Byte := Fin 256

/-- A Go `string` (or `[]byte`): a finite sequence of bytes. -/
abbrev GoString := List Byte

/-- The bytes of a string literal of the source (Go source text is UTF-8). -/
def go (s : String) : GoString :=
  (s.toList.flatMap String.utf8EncodeChar).map (fun b => b.val)

/-! ## encoding/hex -/

/-- The constant `hextable` of `encoding/hex`. -/
def hex.hextable : GoString := go "0123456789abcdef"

/-- Function `fromHexChar` of `encoding/hex`: the value of one hex digit,
`none` standing for the result `(0, false)`.
```go
switch {
case '0' <= c && c <= '9': return c - '0', true
case 'a' <= c && c <= 'f': return c - 'a' + 10, true
case 'A' <= c && c <= 'F': return c - 'A' + 10, true
}
return 0, false
``` -/
def hex.fromHexChar (c : Byte) : Option Byte :=
  if 48 ≤ c ∧ c ≤ 57 then some (c - 48)
  else if 97 ≤ c ∧ c ≤ 102 then some (c - 97 + 10)
  else if 65 ≤ c ∧ c ≤ 70 then some (c - 65 + 10)
  else none

/-- Function `hex.DecodeString`: the decoded bytes, or `none` when the library
returns an error (`ErrLength` for an odd length, `InvalidByteError` for a byte
that is not a hex digit).  Each pair of digits gives the byte `(a << 4) | b`. -/
def hex.DecodeString : GoString → Option (List Byte)
  | [] => some []
  | [_] => none
  | c1 :: c2 :: rest =>
    match hex.fromHexChar c1, hex.fromHexChar c2 with
    | some a, some b =>
      match hex.DecodeString rest with
      | some d => some (((a <<< 4) ||| b) :: d)
      | none => none
    | _, _ => none

/-- Function `hex.EncodeToString`: every byte `v` gives the two characters
`hextable[v>>4]` and `hextable[v&0x0f]`. -/
def hex.EncodeToString (src : List Byte) : GoString :=
  src.flatMap (fun v =>
    [hex.hextable.getD (v.val >>> 4) 0, hex.hextable.getD (v.val &&& 0x0f) 0])

/-! ## labix.org/v2/mgo/bson -/

/-- The type `bson.ObjectId`, declared `type ObjectId string`: the raw bytes of
the identifier (twelve of them for a real identifier; the zero value is the
empty string). -/
abbrev ObjectId := GoString

/-- Function `bson.IsObjectIdHex`:
```go
if len(s) != 24 { return false }
_, err := hex.DecodeString(s)
return err == nil
``` -/
def bson.IsObjectIdHex (s : GoString) : Bool :=
  if s.length ≠ 24 then false
  else (hex.DecodeString s).isSome

/-- Function `bson.ObjectIdHex`; `none` stands for its runtime panic.
```go
d, err := hex.DecodeString(s)
if err != nil || len(d) != 12 { panic(...) }
return ObjectId(d)
``` -/
def bson.ObjectIdHex (s : GoString) : Option ObjectId :=
  match hex.DecodeString s with
  | none => none
  | some d => if d.length ≠ 12 then none else some d

/-- Method `bson.ObjectId.Hex`: `hex.EncodeToString([]byte(id))`. -/
def bson.ObjectId.Hex (id : ObjectId) : GoString :=
  hex.EncodeToString id

/-! ## The framework and driver values the program handles -/

/-- A non-nil `*mgo.Session`, identified by a handle. -/
abbrev MgoSession := Nat

/-- A `reflect.Type`: the type of `bson.ObjectId`, or some other type. -/
inductive ReflectType where
  | ObjectId
  | Other (id : Nat)
  deriving DecidableEq, Repr

/-- A `reflect.Value`, as far as the binder builds one: `reflect.Zero(typ)`,
the zero value of `typ`, or `reflect.ValueOf(objId)`. -/
inductive ReflectValue where
  | Zero (typ : ReflectType)
  | ValueOf (objId : ObjectId)
  deriving DecidableEq, Repr

/-- A non-nil `revel.Result`: the only one this program builds is the one of
`c.RenderError(err)`, which carries the error (by its message). -/
inductive Result where
  | RenderError (err : GoString)
  deriving DecidableEq, Repr

/-- A call into the mgo driver, as recorded in the trace. -/
inductive MgoCall where
  | Dial (url : GoString)
  | Clone (s : MgoSession)
  | Copy (s : MgoSession)
  | New (s : MgoSession)
  | Close (s : MgoSession)
  deriving DecidableEq, Repr

/-- A value stored in `revel.TypeBinders`. -/
inductive Binder where
  | ObjectIdBinder
  | Builtin (id : Nat)
  deriving DecidableEq, Repr

/-- A Go `map[string]string`. -/
abbrev StringMap := GoString → Option GoString

/-- The assignment `m[k] = v` on a `map[string]string`. -/
def StringMap.set (m : StringMap) (k v : GoString) : StringMap :=
  fun x => if x = k then some v else m x

/-- What the outside world answers to the program.
* `ConfigString key` is `revel.Config.String(key)`: the pair `(value, found)`.
* `Dial url` is `mgo.Dial(url)`: `.ok s` for `(s, nil)` with `s` non-nil,
  `.error e` for `(nil, err)` with `err` non-nil, `e` being `err.Error()`.
* `Clone`, `Copy`, `New` give the session returned by the method of that name
  called on a session. -/
structure Env where
  ConfigString : GoString → GoString × Bool
  Dial : GoString → Except GoString MgoSession
  Clone : MgoSession → MgoSession
  Copy : MgoSession → MgoSession
  New : MgoSession → MgoSession

/-- The process-wide state: the package variables `Session`, `Dial`, `Method`,
the map `revel.TypeBinders`, the entries written to `revel.ERROR`, and the
calls made to the driver so far. -/
structure State where
  Session : Option MgoSession
  Dial : GoString
  Method : GoString
  TypeBinders : ReflectType → Option Binder
  log : List GoString
  calls : List MgoCall

/-- The struct `MongoController`, by its field `MongoSession` (the embedded
`*revel.Controller` is never written by this program). -/
structure MongoController where
  MongoSession : Option MgoSession
  deriving DecidableEq, Repr

/-! ## The program -/

/-- Function `MethodError` (lines 84-90): `none` is the nil error, `some msg` an
error with that message.  `errors.New` does not format, so the message keeps
its `%s`. -/
def MethodError (m : GoString) : Option GoString :=
  if m = go "clone" ∨ m = go "copy" ∨ m = go "new" then none
  else some (go "revmgo: Invalid session instantiation method \x27%s\x27")

/-- Function `AppInit` (lines 18-39).  The second component is `some v` when the
function panicked with value `v` (`revel.ERROR.Panic(err)` logs and then
panics), and the state is then the state at the panic. -/
def AppInit (env : Env) (w : State) : State × Option GoString :=
  -- if Dial, found = revel.Config.String("revmgo.dial"); !found { Dial = "localhost" }
  let w1 : State :=
    match env.ConfigString (go "revmgo.dial") with
    | (v, true) => { w with Dial := v }
    | (_, false) => { w with Dial := go "localhost" }
  -- if Method, found = revel.Config.String("db.spec"); !found { Method = "clone" }
  -- else if err := MethodError(Method); err != nil { revel.ERROR.Panic(err) }
  let (w2, panicked) : State × Option GoString :=
    match env.ConfigString (go "db.spec") with
    | (_, false) => ({ w1 with Method := go "clone" }, none)
    | (v, true) =>
      match MethodError v with
      | none => ({ w1 with Method := v }, none)
      | some err => ({ w1 with Method := v, log := w1.log ++ [err] }, some err)
  match panicked with
  | some err => (w2, some err)
  | none =>
    -- if Session == nil { Session, _ = mgo.Dial(Dial) }
    let w3 : State :=
      match w2.Session with
      | some _ => w2
      | none =>
        match env.Dial w2.Dial with
        | .ok s => { w2 with Session := some s, calls := w2.calls ++ [MgoCall.Dial w2.Dial] }
        | .error _ => { w2 with Session := none, calls := w2.calls ++ [MgoCall.Dial w2.Dial] }
    -- revel.TypeBinders[reflect.TypeOf(objId)] = ObjectIdBinder
    ({ w3 with TypeBinders := fun t =>
        if t = ReflectType.ObjectId then some Binder.ObjectIdBinder else w3.TypeBinders t },
     none)

/-- The `switch Method` of `Begin` (lines 63-71), entered with the package
variable `Session` holding the non-nil session `s`. -/
def MongoController.Begin.switchMethod (env : Env) (w : State) (c : MongoController)
    (s : MgoSession) : State × MongoController × Option Result :=
  if w.Method = go "clone" then
    ({ w with calls := w.calls ++ [MgoCall.Clone s] }, { c with MongoSession := some (env.Clone s) }, none)
  else if w.Method = go "copy" then
    ({ w with calls := w.calls ++ [MgoCall.Copy s] }, { c with MongoSession := some (env.Copy s) }, none)
  else if w.Method = go "new" then
    ({ w with calls := w.calls ++ [MgoCall.New s] }, { c with MongoSession := some (env.New s) }, none)
  else (w, c, none)

/-- Method `(*MongoController).Begin` (lines 52-72).  The third component is the
returned `revel.Result`, `none` for nil. -/
def MongoController.Begin (env : Env) (w : State) (c : MongoController) :
    State × MongoController × Option Result :=
  match w.Session with
  | none =>
    -- if Session, err = mgo.Dial(Dial); err != nil { ... return c.RenderError(err) }
    match env.Dial w.Dial with
    | .error e =>
      ({ w with Session := none, calls := w.calls ++ [MgoCall.Dial w.Dial] }, c,
        some (Result.RenderError (go "Could not connect to Mongo DB. Error: " ++ e)))
    | .ok s =>
      MongoController.Begin.switchMethod env
        { w with Session := some s, calls := w.calls ++ [MgoCall.Dial w.Dial] } c s
  | some s => MongoController.Begin.switchMethod env w c s

/-- Method `(*MongoController).End` (lines 75-82). -/
def MongoController.End (w : State) (c : MongoController) :
    State × MongoController × Option Result :=
  match c.MongoSession with
  | some s => ({ w with calls := w.calls ++ [MgoCall.Close s] }, c, none)
  | none => (w, c, none)

/-- Field `Bind` of `ObjectIdBinder` (lines 96-107).  The first component is the
returned `reflect.Value`, `none` if the function panicked; the second is
`revel.ERROR` after the call. -/
def ObjectIdBinder.Bind (val : GoString) (typ : ReflectType) (log : List GoString) :
    Option ReflectValue × List GoString :=
  if val.length = 0 then (some (ReflectValue.Zero typ), log)
  else if bson.IsObjectIdHex val then
    match bson.ObjectIdHex val with
    | some objId => (some (ReflectValue.ValueOf objId), log)
    | none => (none, log)
  else
    (some (ReflectValue.Zero typ), log ++ [go "ObjectIdBinder.Bind - invalid ObjectId!"])

/-- Field `Unbind` of `ObjectIdBinder` (lines 109-119), for `val` holding a
`bson.ObjectId` (the type assertion `val.(bson.ObjectId)` succeeds);
`fmt.Sprintf("%s", s)` of a string `s` is `s`.  The result is the output map
and `revel.ERROR` after the call. -/
def ObjectIdBinder.Unbind (output : StringMap) (name : GoString) (val : ObjectId)
    (log : List GoString) : StringMap × List GoString :=
  let hexStr := bson.ObjectId.Hex val
  if bson.IsObjectIdHex hexStr then (output.set name hexStr, log)
  else (output.set name [], log ++ [go "ObjectIdBinder.Unbind - invalid ObjectId!"])

/-! ## Vocabulary of the statements -/


/-- The lower-case form of a hex digit: the bytes `A`..`F` (65..70) become
`a`..`f`, every other byte is kept.  A string is lower-cased byte by byte. -/
def hexToLower (c : Byte) : Byte :=
  if 65 ≤ c ∧ c ≤ 70 then c + 32 else c

/-! ## encoding/hex: decoding and encoding are inverse up to letter case -/

set_option maxRecDepth 100000 in
theorem hex.fromHexChar_digit_all :
    ∀ c : Byte, (hex.fromHexChar c).all
      (fun a => decide (a.val < 16 ∧ hex.hextable.getD a.val 0 = hexToLower c)) = true := by
  decide

theorem hex.fromHexChar_digit (c a : Byte) (h : hex.fromHexChar c = some a) :
    a.val < 16 ∧ hex.hextable.getD a.val 0 = hexToLower c := by
  have := hex.fromHexChar_digit_all c
  rw [h] at this
  simpa using this

set_option maxRecDepth 100000 in
theorem hex.pack_nibbles_all :
    ∀ a : Fin 16, ∀ b : Fin 16,
      ((((Fin.ofNat a.val : Byte) <<< 4) ||| (Fin.ofNat b.val : Byte)).val >>> 4 = a.val) ∧
      ((((Fin.ofNat a.val : Byte) <<< 4) ||| (Fin.ofNat b.val : Byte)).val &&& 0x0f = b.val) := by
  decide

theorem hex.pack_nibbles (a b : Byte) (ha : a.val < 16) (hb : b.val < 16) :
    ((a <<< 4) ||| b).val >>> 4 = a.val ∧ ((a <<< 4) ||| b).val &&& 0x0f = b.val := by
  have := hex.pack_nibbles_all ⟨a.val, ha⟩ ⟨b.val, hb⟩
  have ea : (Fin.ofNat a.val : Byte) = a := by
    apply Fin.ext; simp [Fin.ofNat]
  have eb : (Fin.ofNat b.val : Byte) = b := by
    apply Fin.ext; simp [Fin.ofNat]
  simpa [ea, eb] using this

set_option maxRecDepth 100000 in
theorem hex.decode_encode_byte :
    ∀ v : Byte, hex.DecodeString (hex.EncodeToString [v]) = some [v] := by
  decide

theorem pairInduction {α : Type} {P : List α → Prop} (h0 : P [])
    (h1 : ∀ a, P [a]) (h2 : ∀ a b l, P l → P (a :: b :: l)) : ∀ l, P l
  | [] => h0
  | [a] => h1 a
  | a :: b :: l => h2 a b l (pairInduction h0 h1 h2 l)

theorem hex.DecodeString_cons_cons (c1 c2 : Byte) (rest : GoString) :
    hex.DecodeString (c1 :: c2 :: rest) =
      match hex.fromHexChar c1, hex.fromHexChar c2 with
      | some a, some b =>
        match hex.DecodeString rest with
        | some d => some (((a <<< 4) ||| b) :: d)
        | none => none
      | _, _ => none := by
  rw [hex.DecodeString]

theorem hex.DecodeString_cons_cons_some (c1 c2 : Byte) (rest : GoString) (d : List Byte)
    (h : hex.DecodeString (c1 :: c2 :: rest) = some d) :
    ∃ a b r, hex.fromHexChar c1 = some a ∧ hex.fromHexChar c2 = some b ∧
      hex.DecodeString rest = some r ∧ d = ((a <<< 4) ||| b) :: r := by
  rw [hex.DecodeString_cons_cons] at h
  cases h1 : hex.fromHexChar c1 with
  | none => simp [h1] at h
  | some a =>
    cases h2 : hex.fromHexChar c2 with
    | none => simp [h1, h2] at h
    | some b =>
      cases h3 : hex.DecodeString rest with
      | none => simp [h1, h2, h3] at h
      | some r =>
        simp [h1, h2, h3] at h
        exact ⟨a, b, r, rfl, rfl, rfl, h.symm⟩

theorem hex.DecodeString_length (s : GoString) :
    ∀ d, hex.DecodeString s = some d → s.length = 2 * d.length := by
  induction s using pairInduction with
  | h0 => intro d h; simp [hex.DecodeString] at h; subst h; rfl
  | h1 a => intro d h; simp [hex.DecodeString] at h
  | h2 c1 c2 rest ih =>
    intro d h
    obtain ⟨a, b, r, _, _, h3, rfl⟩ := hex.DecodeString_cons_cons_some c1 c2 rest d h
    have := ih r h3
    simp [this]; omega

theorem hex.EncodeToString_cons (v : Byte) (vs : List Byte) :
    hex.EncodeToString (v :: vs) =
      hex.hextable.getD (v.val >>> 4) 0 :: hex.hextable.getD (v.val &&& 0x0f) 0 ::
        hex.EncodeToString vs := by
  simp [hex.EncodeToString]

theorem hex.EncodeToString_length (src : List Byte) :
    (hex.EncodeToString src).length = 2 * src.length := by
  induction src with
  | nil => rfl
  | cons v vs ih => rw [hex.EncodeToString_cons]; simp [ih]; omega

theorem hex.DecodeString_EncodeToString (src : List Byte) :
    hex.DecodeString (hex.EncodeToString src) = some src := by
  induction src with
  | nil => rfl
  | cons v vs ih =>
    have hv := hex.decode_encode_byte v
    rw [hex.EncodeToString_cons] at hv ⊢
    obtain ⟨a, b, r, h1, h2, h3, h4⟩ := hex.DecodeString_cons_cons_some _ _ _ _ hv
    have hr : r = [] := by
      simp [hex.EncodeToString, hex.DecodeString] at h3; exact h3
    subst hr
    rw [hex.DecodeString_cons_cons, h1, h2]
    simp only [ih]
    simp at h4
    simp [h4]

theorem hex.EncodeToString_DecodeString (s : GoString) :
    ∀ d, hex.DecodeString s = some d → hex.EncodeToString d = s.map hexToLower := by
  induction s using pairInduction with
  | h0 => intro d h; simp [hex.DecodeString] at h; subst h; rfl
  | h1 a => intro d h; simp [hex.DecodeString] at h
  | h2 c1 c2 rest ih =>
    intro d h
    obtain ⟨a, b, r, h1, h2, h3, rfl⟩ := hex.DecodeString_cons_cons_some c1 c2 rest d h
    obtain ⟨ha, hla⟩ := hex.fromHexChar_digit c1 a h1
    obtain ⟨hb, hlb⟩ := hex.fromHexChar_digit c2 b h2
    obtain ⟨p1, p2⟩ := hex.pack_nibbles a b ha hb
    rw [hex.EncodeToString_cons, p1, p2, hla, hlb, ih r h3]
    simp

/-! ## The ObjectId binder -/

theorem bson.IsObjectIdHex_iff (s : GoString) :
    bson.IsObjectIdHex s = true ↔
      s.length = 24 ∧ ∃ d, hex.DecodeString s = some d := by
  unfold bson.IsObjectIdHex
  by_cases hl : s.length = 24
  · simp [hl, Option.isSome_iff_exists]
  · simp [hl]

theorem bson.ObjectIdHex_of_valid (s : GoString) (h : bson.IsObjectIdHex s = true) :
    ∃ d, hex.DecodeString s = some d ∧ d.length = 12 ∧ bson.ObjectIdHex s = some d := by
  obtain ⟨hl, d, hd⟩ := (bson.IsObjectIdHex_iff s).1 h
  have h12 : d.length = 12 := by
    have := hex.DecodeString_length s d hd
    omega
  exact ⟨d, hd, h12, by simp [bson.ObjectIdHex, hd, h12]⟩

theorem bson.IsObjectIdHex_Hex (id : ObjectId) :
    bson.IsObjectIdHex (bson.ObjectId.Hex id) = decide (id.length = 12) := by
  unfold bson.IsObjectIdHex bson.ObjectId.Hex
  rw [hex.EncodeToString_length, hex.DecodeString_EncodeToString]
  by_cases h : id.length = 12
  · simp [h]
  · have : 2 * id.length ≠ 24 := by omega
    simp [h, this]

theorem ObjectIdBinder.Bind_valid (s : GoString) (typ : ReflectType) (log : List GoString)
    (d : ObjectId) (h : bson.IsObjectIdHex s = true) (hd : bson.ObjectIdHex s = some d) :
    ObjectIdBinder.Bind s typ log = (some (ReflectValue.ValueOf d), log) := by
  have hl : s.length ≠ 0 := by
    have := ((bson.IsObjectIdHex_iff s).1 h).1
    omega
  simp [ObjectIdBinder.Bind, hl, h, hd]

theorem ObjectIdBinder.Unbind_twelve (output : StringMap) (name : GoString) (id : ObjectId)
    (log : List GoString) (h : id.length = 12) :
    ObjectIdBinder.Unbind output name id log = (output.set name (bson.ObjectId.Hex id), log) := by
  simp [ObjectIdBinder.Unbind, bson.IsObjectIdHex_Hex, h]

/-- C1, the claim as stated, fails: the well-formed string `4D88E15B60F486E428412DC9`
is bound to the identifier with bytes 4d 88 e1 5b 60 f4 86 e4 28 41 2d c9, and
unbinding that identifier stores `4d88e15b60f486e428412dc9` under the name, which
is not the string that was bound. -/
theorem ObjectIdBinder.bind_unbind_uppercase_changed :
    bson.IsObjectIdHex (go "4D88E15B60F486E428412DC9") = true ∧
    ObjectIdBinder.Bind (go "4D88E15B60F486E428412DC9") ReflectType.ObjectId [] =
      (some (ReflectValue.ValueOf [77, 136, 225, 91, 96, 244, 134, 228, 40, 65, 45, 201]), []) ∧
    (ObjectIdBinder.Unbind (fun _ => none) (go "id")
        [77, 136, 225, 91, 96, 244, 134, 228, 40, 65, 45, 201] []).1 (go "id") =
      some (go "4d88e15b60f486e428412dc9") ∧
    (ObjectIdBinder.Unbind (fun _ => none) (go "id")
        [77, 136, 225, 91, 96, 244, 134, 228, 40, 65, 45, 201] []).1 (go "id") ≠
      some (go "4D88E15B60F486E428412DC9") := by
  decide

/-- C1 (amended): for every string `s` accepted by `bson.IsObjectIdHex`, `Bind`
returns an identifier without logging, and `Unbind` of that identifier stores
under `name` the lower-case form of `s` (hex digits `A`..`F` replaced by
`a`..`f`) and logs nothing; when `s` has no upper-case hex digit the stored
string is exactly `s`. -/
theorem ObjectIdBinder.bind_unbind_lowercase (s : GoString) (typ : ReflectType)
    (output : StringMap) (name : GoString) (log : List GoString)
    (h : bson.IsObjectIdHex s = true) :
    ∃ id : ObjectId,
      ObjectIdBinder.Bind s typ log = (some (ReflectValue.ValueOf id), log) ∧
      ObjectIdBinder.Unbind output name id log = (output.set name (s.map hexToLower), log) ∧
      ((∀ c ∈ s, ¬ (65 ≤ c ∧ c ≤ 70)) →
        ObjectIdBinder.Unbind output name id log = (output.set name s, log)) := by
  obtain ⟨d, hd, h12, hox⟩ := bson.ObjectIdHex_of_valid s h
  have hu : ObjectIdBinder.Unbind output name d log =
      (output.set name (s.map hexToLower), log) := by
    rw [ObjectIdBinder.Unbind_twelve output name d log h12, bson.ObjectId.Hex,
      hex.EncodeToString_DecodeString s d hd]
  refine ⟨d, ObjectIdBinder.Bind_valid s typ log d h hox, hu, ?_⟩
  intro hlow
  have hs : s.map hexToLower = s := by
    conv_rhs => rw [← List.map_id s]
    apply List.map_congr_left
    intro c hc
    simp [hexToLower, hlow c hc]
  rw [hu, hs]

/-- Witness for C1 (amended), at the lower-case string `4d88e15b60f486e428412dc9`. -/
theorem ObjectIdBinder.bind_unbind_lowercase_witness :
    bson.IsObjectIdHex (go "4d88e15b60f486e428412dc9") = true ∧
    ∃ id : ObjectId,
      ObjectIdBinder.Bind (go "4d88e15b60f486e428412dc9") ReflectType.ObjectId [] =
        (some (ReflectValue.ValueOf id), []) ∧
      ObjectIdBinder.Unbind (fun _ => none) (go "id") id [] =
        (StringMap.set (fun _ => none) (go "id")
          ((go "4d88e15b60f486e428412dc9").map hexToLower), []) ∧
      ((∀ c ∈ go "4d88e15b60f486e428412dc9", ¬ (65 ≤ c ∧ c ≤ 70)) →
        ObjectIdBinder.Unbind (fun _ => none) (go "id") id [] =
          (StringMap.set (fun _ => none) (go "id") (go "4d88e15b60f486e428412dc9"), [])) :=
  ⟨by decide,
    ObjectIdBinder.bind_unbind_lowercase (go "4d88e15b60f486e428412dc9") ReflectType.ObjectId
      (fun _ => none) (go "id") [] (by decide)⟩

/-- C6: for every string `s` that `bson.IsObjectIdHex` rejects, `Bind` returns
normally (no panic, and its only result is a value) the zero value
`reflect.Zero(typ)` of the target type, which is the zero-value identifier for
the type the binder is registered under; `revel.ERROR` gets exactly one new
entry when `s` is non-empty and none when `s` is empty.  The empty string is
such an `s`. -/
theorem ObjectIdBinder.Bind_invalid (s : GoString) (typ : ReflectType) (log : List GoString)
    (h : bson.IsObjectIdHex s = false) :
    ObjectIdBinder.Bind s typ log =
      (some (ReflectValue.Zero typ),
        if s = [] then log else log ++ [go "ObjectIdBinder.Bind - invalid ObjectId!"]) ∧
    bson.IsObjectIdHex [] = false ∧
    ObjectIdBinder.Bind [] typ log = (some (ReflectValue.Zero typ), log) := by
  refine ⟨?_, by decide, by simp [ObjectIdBinder.Bind]⟩
  cases s with
  | nil => simp [ObjectIdBinder.Bind]
  | cons c cs => simp [ObjectIdBinder.Bind, h]

/-- Witness for C6, at the 24-byte string `4d88e15b60f486e428412dcg`, whose last
byte is not a hex digit. -/
theorem ObjectIdBinder.Bind_invalid_witness :
    bson.IsObjectIdHex (go "4d88e15b60f486e428412dcg") = false ∧
    ObjectIdBinder.Bind (go "4d88e15b60f486e428412dcg") ReflectType.ObjectId [] =
      (some (ReflectValue.Zero ReflectType.ObjectId),
        [go "ObjectIdBinder.Bind - invalid ObjectId!"]) :=
  ⟨by decide,
    (ObjectIdBinder.Bind_invalid (go "4d88e15b60f486e428412dcg") ReflectType.ObjectId []
      (by decide)).1⟩

/-- C7: for every identifier value `v`, output map and name, `Unbind` sets
`output[name]` to `v.Hex()` and logs nothing when `bson.IsObjectIdHex` accepts
that rendering, and sets it to the empty string and logs one error entry
otherwise; the value stored under `name` is therefore empty or accepted by
`bson.IsObjectIdHex`; every other key keeps its entry. -/
theorem ObjectIdBinder.Unbind_spec (output : StringMap) (name : GoString) (v : ObjectId)
    (log : List GoString) :
    (bson.IsObjectIdHex (bson.ObjectId.Hex v) = true →
      ObjectIdBinder.Unbind output name v log = (output.set name (bson.ObjectId.Hex v), log)) ∧
    (bson.IsObjectIdHex (bson.ObjectId.Hex v) = false →
      ObjectIdBinder.Unbind output name v log =
        (output.set name [], log ++ [go "ObjectIdBinder.Unbind - invalid ObjectId!"])) ∧
    (∃ e, (ObjectIdBinder.Unbind output name v log).1 name = some e ∧
      (e = [] ∨ bson.IsObjectIdHex e = true)) ∧
    (∀ k, k ≠ name → (ObjectIdBinder.Unbind output name v log).1 k = output k) := by
  refine ⟨?_, ?_, ?_, ?_⟩
  · intro hv
    simp [ObjectIdBinder.Unbind, hv]
  · intro hv
    simp [ObjectIdBinder.Unbind, hv]
  · by_cases hv : bson.IsObjectIdHex (bson.ObjectId.Hex v) = true
    · exact ⟨bson.ObjectId.Hex v, by simp [ObjectIdBinder.Unbind, hv, StringMap.set], Or.inr hv⟩
    · exact ⟨[], by simp [ObjectIdBinder.Unbind, hv, StringMap.set], Or.inl rfl⟩
  · intro k hk
    by_cases hv : bson.IsObjectIdHex (bson.ObjectId.Hex v) = true
    · simp [ObjectIdBinder.Unbind, hv, StringMap.set, hk]
    · simp [ObjectIdBinder.Unbind, hv, StringMap.set, hk]

/-- Witness for C7, at the three-byte identifier value `01 02 03` (rendered
`010203`, which is not 24 characters long) and a map that holds `other`. -/
theorem ObjectIdBinder.Unbind_spec_witness :
    bson.IsObjectIdHex (bson.ObjectId.Hex [1, 2, 3]) = false ∧
    ObjectIdBinder.Unbind (StringMap.set (fun _ => none) (go "other") (go "x")) (go "id")
        [1, 2, 3] [] =
      (StringMap.set (StringMap.set (fun _ => none) (go "other") (go "x")) (go "id") [],
        [go "ObjectIdBinder.Unbind - invalid ObjectId!"]) ∧
    go "other" ≠ go "id" ∧
    (ObjectIdBinder.Unbind (StringMap.set (fun _ => none) (go "other") (go "x")) (go "id")
        [1, 2, 3] []).1 (go "other") = some (go "x") :=
  ⟨by decide,
    (ObjectIdBinder.Unbind_spec (StringMap.set (fun _ => none) (go "other") (go "x")) (go "id")
      [1, 2, 3] []).2.1 (by decide),
    by decide,
    by decide⟩

/-- C10: for every 12-byte identifier `id`, `Unbind` takes its valid branch: it
stores `id.Hex()` under `name` and logs nothing; that string is non-empty, 24
bytes long and accepted by `bson.IsObjectIdHex`; and `Bind` applied to it
returns `id` itself, again without logging. -/
theorem ObjectIdBinder.unbind_bind_roundtrip (id : ObjectId) (typ : ReflectType)
    (output : StringMap) (name : GoString) (log : List GoString) (h : id.length = 12) :
    ObjectIdBinder.Unbind output name id log = (output.set name (bson.ObjectId.Hex id), log) ∧
    bson.ObjectId.Hex id ≠ [] ∧
    (bson.ObjectId.Hex id).length = 24 ∧
    bson.IsObjectIdHex (bson.ObjectId.Hex id) = true ∧
    ObjectIdBinder.Bind (bson.ObjectId.Hex id) typ log =
      (some (ReflectValue.ValueOf id), log) := by
  have hlen : (bson.ObjectId.Hex id).length = 24 := by
    rw [bson.ObjectId.Hex, hex.EncodeToString_length, h]
  have hval : bson.IsObjectIdHex (bson.ObjectId.Hex id) = true := by
    simp [bson.IsObjectIdHex_Hex, h]
  have hne : bson.ObjectId.Hex id ≠ [] := by
    intro he
    rw [he] at hlen
    simp at hlen
  have hox : bson.ObjectIdHex (bson.ObjectId.Hex id) = some id := by
    simp [bson.ObjectIdHex, bson.ObjectId.Hex, hex.DecodeString_EncodeToString, h]
  exact ⟨ObjectIdBinder.Unbind_twelve output name id log h, hne, hlen, hval,
    ObjectIdBinder.Bind_valid _ typ log id hval hox⟩

/-- Witness for C10, at the identifier with bytes 4d 88 e1 5b 60 f4 86 e4 28 41 2d c9. -/
theorem ObjectIdBinder.unbind_bind_roundtrip_witness :
    ([77, 136, 225, 91, 96, 244, 134, 228, 40, 65, 45, 201] : ObjectId).length = 12 ∧
    bson.ObjectId.Hex [77, 136, 225, 91, 96, 244, 134, 228, 40, 65, 45, 201] =
      go "4d88e15b60f486e428412dc9" ∧
    ObjectIdBinder.Bind
        (bson.ObjectId.Hex [77, 136, 225, 91, 96, 244, 134, 228, 40, 65, 45, 201])
        ReflectType.ObjectId [] =
      (some (ReflectValue.ValueOf [77, 136, 225, 91, 96, 244, 134, 228, 40, 65, 45, 201]), []) :=
  ⟨by decide, by decide,
    (ObjectIdBinder.unbind_bind_roundtrip [77, 136, 225, 91, 96, 244, 134, 228, 40, 65, 45, 201]
      ReflectType.ObjectId (fun _ => none) (go "id") [] (by decide)).2.2.2.2⟩

/-! ## Start-up -/

theorem MethodError_eq_none_iff (m : GoString) :
    MethodError m = none ↔ (m = go "clone" ∨ m = go "copy" ∨ m = go "new") := by
  unfold MethodError
  split <;> simp_all

/-- C2: for every strategy string `m` found in the configuration, `MethodError m`
is the nil error exactly when `m` is `clone`, `copy` or `new`, and `AppInit`
panics exactly when `m` is none of the three; the panic value is the error of
`MethodError`, and at the panic no dial has been attempted. -/
theorem AppInit_panics_iff (env : Env) (w : State) (m : GoString)
    (hm : env.ConfigString (go "db.spec") = (m, true)) :
    (MethodError m = none ↔ (m = go "clone" ∨ m = go "copy" ∨ m = go "new")) ∧
    ((AppInit env w).2 ≠ none ↔ ¬ (m = go "clone" ∨ m = go "copy" ∨ m = go "new")) ∧
    (AppInit env w).2 = MethodError m ∧
    ((AppInit env w).2 ≠ none → (AppInit env w).1.calls = w.calls) := by
  have key : (AppInit env w).2 = MethodError m ∧
      ((AppInit env w).2 ≠ none → (AppInit env w).1.calls = w.calls) := by
    unfold AppInit
    rw [hm]
    rcases hd : env.ConfigString (go "revmgo.dial") with ⟨d, fd⟩
    cases hme : MethodError m <;> cases fd <;> simp [hme]
  refine ⟨MethodError_eq_none_iff m, ?_, key.1, key.2⟩
  rw [key.1, ← MethodError_eq_none_iff]

/-- Witness for C2, at the strategy `bogus`. -/
theorem AppInit_panics_iff_witness :
    (AppInit ⟨fun _ => (go "bogus", true), fun _ => .ok 1, id, id, id⟩
      ⟨none, [], [], fun _ => none, [], []⟩).2 ≠ none :=
  (AppInit_panics_iff ⟨fun _ => (go "bogus", true), fun _ => .ok 1, id, id, id⟩
    ⟨none, [], [], fun _ => none, [], []⟩ (go "bogus") rfl).2.1.2 (by decide)

/-- C8: after `AppInit`, `Dial` is the configured value when the key
`revmgo.dial` is found and `localhost` when it is not; when the key `db.spec`
is not found, `Method` is `clone` and `AppInit` does not panic.  Each of the
three holds whatever the configuration answers for the other key. -/
theorem AppInit_defaults (env : Env) (w : State) :
    (∀ v, env.ConfigString (go "revmgo.dial") = (v, true) → (AppInit env w).1.Dial = v) ∧
    (∀ v, env.ConfigString (go "revmgo.dial") = (v, false) →
      (AppInit env w).1.Dial = go "localhost") ∧
    (∀ v, env.ConfigString (go "db.spec") = (v, false) →
      (AppInit env w).1.Method = go "clone" ∧ (AppInit env w).2 = none) := by
  refine ⟨?_, ?_, ?_⟩
  · intro v hd
    unfold AppInit
    rw [hd]
    rcases hm : env.ConfigString (go "db.spec") with ⟨m, fm⟩
    cases fm
    · cases hs : w.Session <;> simp [hs]
      cases env.Dial v <;> simp
    · cases hme : MethodError m <;> simp [hme]
      cases hs : w.Session <;> simp [hs]
      cases env.Dial v <;> simp
  · intro v hd
    unfold AppInit
    rw [hd]
    rcases hm : env.ConfigString (go "db.spec") with ⟨m, fm⟩
    cases fm
    · cases hs : w.Session <;> simp [hs]
      cases env.Dial (go "localhost") <;> simp
    · cases hme : MethodError m <;> simp [hme]
      cases hs : w.Session <;> simp [hs]
      cases env.Dial (go "localhost") <;> simp
  · intro v hm
    unfold AppInit
    rw [hm]
    rcases hd : env.ConfigString (go "revmgo.dial") with ⟨d, fd⟩
    cases fd
    · cases hs : w.Session <;> simp [hs]
      cases env.Dial (go "localhost") <;> simp
    · cases hs : w.Session <;> simp [hs]
      cases env.Dial d <;> simp

/-- Witness for C8, at a configuration that has neither key and a database that
cannot be reached. -/
theorem AppInit_defaults_witness :
    (AppInit ⟨fun _ => ([], false), fun _ => .error (go "no reachable servers"), id, id, id⟩
      ⟨none, [], [], fun _ => none, [], []⟩).1.Dial = go "localhost" ∧
    (AppInit ⟨fun _ => ([], false), fun _ => .error (go "no reachable servers"), id, id, id⟩
      ⟨none, [], [], fun _ => none, [], []⟩).1.Method = go "clone" ∧
    (AppInit ⟨fun _ => ([], false), fun _ => .error (go "no reachable servers"), id, id, id⟩
      ⟨none, [], [], fun _ => none, [], []⟩).2 = none :=
  ⟨(AppInit_defaults ⟨fun _ => ([], false), fun _ => .error (go "no reachable servers"), id, id, id⟩
      ⟨none, [], [], fun _ => none, [], []⟩).2.1 [] rfl,
   (AppInit_defaults ⟨fun _ => ([], false), fun _ => .error (go "no reachable servers"), id, id, id⟩
      ⟨none, [], [], fun _ => none, [], []⟩).2.2 [] rfl⟩

/-- C9: for every configuration whose strategy is absent or one of `clone`,
`copy`, `new`, `AppInit` returns without panicking and registers
`ObjectIdBinder` under the type of `bson.ObjectId`, whatever the dial answers.
When no shared session exists it makes exactly one dial call, to the address in
`Dial`, and a failed dial leaves `Session` nil; when a shared session exists it
makes no driver call and `Session` keeps that session. -/
theorem AppInit_startup_dial (env : Env) (w : State)
    (hvalid : ∀ v, env.ConfigString (go "db.spec") = (v, true) →
      (v = go "clone" ∨ v = go "copy" ∨ v = go "new")) :
    (AppInit env w).2 = none ∧
    (AppInit env w).1.TypeBinders ReflectType.ObjectId = some Binder.ObjectIdBinder ∧
    (w.Session = none →
      (AppInit env w).1.calls = w.calls ++ [MgoCall.Dial (AppInit env w).1.Dial]) ∧
    (∀ e, w.Session = none → env.Dial (AppInit env w).1.Dial = .error e →
      (AppInit env w).1.Session = none) ∧
    (∀ s, w.Session = some s →
      (AppInit env w).1.calls = w.calls ∧ (AppInit env w).1.Session = some s) := by
  rcases hm : env.ConfigString (go "db.spec") with ⟨m, fm⟩
  rcases hd : env.ConfigString (go "revmgo.dial") with ⟨d, fd⟩
  have hme : fm = true → MethodError m = none := by
    intro hf
    subst hf
    exact (MethodError_eq_none_iff m).2 (hvalid m hm)
  unfold AppInit
  rw [hm, hd]
  cases fm <;> cases fd <;> simp [hme] <;>
    (cases hs : w.Session <;> simp [hs]) <;>
    (first
      | done
      | (cases hdl : env.Dial (go "localhost") <;> simp [hdl])
      | (cases hdl : env.Dial d <;> simp [hdl]))

/-- Witness for C9, at the strategy `copy`, no shared session and a database
that cannot be reached. -/
theorem AppInit_startup_dial_witness :
    (AppInit ⟨fun k => if k = go "db.spec" then (go "copy", true) else ([], false),
        fun _ => .error (go "no reachable servers"), id, id, id⟩
      ⟨none, [], [], fun _ => none, [], []⟩).2 = none ∧
    (AppInit ⟨fun k => if k = go "db.spec" then (go "copy", true) else ([], false),
        fun _ => .error (go "no reachable servers"), id, id, id⟩
      ⟨none, [], [], fun _ => none, [], []⟩).1.Session = none ∧
    (AppInit ⟨fun k => if k = go "db.spec" then (go "copy", true) else ([], false),
        fun _ => .error (go "no reachable servers"), id, id, id⟩
      ⟨none, [], [], fun _ => none, [], []⟩).1.calls = [MgoCall.Dial (go "localhost")] :=
  ⟨(AppInit_startup_dial ⟨fun k => if k = go "db.spec" then (go "copy", true) else ([], false),
        fun _ => .error (go "no reachable servers"), id, id, id⟩
      ⟨none, [], [], fun _ => none, [], []⟩
      (fun v hv => Or.inr (Or.inl (by
        have h : (go "copy", true) = (v, true) := by simpa using hv
        exact (congrArg Prod.fst h).symm)))).1,
   by decide, by decide⟩

/-! ## The request hooks -/

/-- C3: when no shared session exists and the dial fails with error `e`, `Begin`
returns the result of `c.RenderError` on the error whose message is
`Could not connect to Mongo DB. Error: ` followed by `e`; `Session` is still nil,
the controller is unchanged (no per-request session is attached), and the only
driver call made is the dial. -/
theorem MongoController.Begin_dial_error (env : Env) (w : State) (c : MongoController)
    (e : GoString) (hs : w.Session = none) (hd : env.Dial w.Dial = .error e) :
    (MongoController.Begin env w c).2.2 =
      some (Result.RenderError (go "Could not connect to Mongo DB. Error: " ++ e)) ∧
    (MongoController.Begin env w c).1.Session = none ∧
    (MongoController.Begin env w c).2.1 = c ∧
    (MongoController.Begin env w c).1.calls = w.calls ++ [MgoCall.Dial w.Dial] := by
  simp [MongoController.Begin, hs, hd]

/-- Witness for C3, at a fresh controller and a database that cannot be reached. -/
theorem MongoController.Begin_dial_error_witness :
    (MongoController.Begin ⟨fun _ => ([], false), fun _ => .error (go "no reachable servers"),
        id, id, id⟩
      ⟨none, go "localhost", go "clone", fun _ => none, [], []⟩ ⟨none⟩).2.2 =
      some (Result.RenderError
        (go "Could not connect to Mongo DB. Error: no reachable servers")) ∧
    (MongoController.Begin ⟨fun _ => ([], false), fun _ => .error (go "no reachable servers"),
        id, id, id⟩
      ⟨none, go "localhost", go "clone", fun _ => none, [], []⟩ ⟨none⟩).2.1 = ⟨none⟩ :=
  ⟨by
    have h := (MongoController.Begin_dial_error
      ⟨fun _ => ([], false), fun _ => .error (go "no reachable servers"), id, id, id⟩
      ⟨none, go "localhost", go "clone", fun _ => none, [], []⟩ ⟨none⟩
      (go "no reachable servers") rfl rfl).1
    rw [h]
    decide,
   by decide⟩

/-- C4: when `Method` is `clone`, `copy` or `new` and the shared session is `s`,
either because it already exists or because the dial returns it, `Begin`
returns nil, `Session` is `s`, and the driver calls made are the dial (only
when there was no shared session) followed by exactly one derivation on `s`:
`Clone` for `clone`, `Copy` for `copy`, `New` for `new`, whose result becomes
the controller's `MongoSession`. -/
theorem MongoController.Begin_derives (env : Env) (w : State) (c : MongoController)
    (s : MgoSession)
    (hm : w.Method = go "clone" ∨ w.Method = go "copy" ∨ w.Method = go "new")
    (hs : w.Session = some s ∨ (w.Session = none ∧ env.Dial w.Dial = .ok s)) :
    (MongoController.Begin env w c).2.2 = none ∧
    (MongoController.Begin env w c).1.Session = some s ∧
    (w.Method = go "clone" →
      (MongoController.Begin env w c).2.1.MongoSession = some (env.Clone s) ∧
      (MongoController.Begin env w c).1.calls =
        (match w.Session with
          | some _ => w.calls
          | none => w.calls ++ [MgoCall.Dial w.Dial]) ++ [MgoCall.Clone s]) ∧
    (w.Method = go "copy" →
      (MongoController.Begin env w c).2.1.MongoSession = some (env.Copy s) ∧
      (MongoController.Begin env w c).1.calls =
        (match w.Session with
          | some _ => w.calls
          | none => w.calls ++ [MgoCall.Dial w.Dial]) ++ [MgoCall.Copy s]) ∧
    (w.Method = go "new" →
      (MongoController.Begin env w c).2.1.MongoSession = some (env.New s) ∧
      (MongoController.Begin env w c).1.calls =
        (match w.Session with
          | some _ => w.calls
          | none => w.calls ++ [MgoCall.Dial w.Dial]) ++ [MgoCall.New s]) := by
  have h1 : go "copy" ≠ go "clone" := by decide
  have h2 : go "new" ≠ go "clone" := by decide
  have h3 : go "new" ≠ go "copy" := by decide
  rcases hs with hs | ⟨hs, hd⟩
  · rcases hm with hm | hm | hm <;>
      simp [MongoController.Begin, MongoController.Begin.switchMethod, hs, hm, h1, h2, h3,
        h1.symm, h2.symm, h3.symm]
  · rcases hm with hm | hm | hm <;>
      simp [MongoController.Begin, MongoController.Begin.switchMethod, hs, hd, hm, h1, h2, h3,
        h1.symm, h2.symm, h3.symm]

/-- Witness for C4, at the strategy `copy`, no shared session and a dial that
returns session 7, whose copy is session 9. -/
theorem MongoController.Begin_derives_witness :
    (MongoController.Begin ⟨fun _ => ([], false), fun _ => .ok 7, fun s => s + 1,
        fun s => s + 2, fun s => s + 3⟩
      ⟨none, go "localhost", go "copy", fun _ => none, [], []⟩ ⟨none⟩).2.1.MongoSession =
      some 9 ∧
    (MongoController.Begin ⟨fun _ => ([], false), fun _ => .ok 7, fun s => s + 1,
        fun s => s + 2, fun s => s + 3⟩
      ⟨none, go "localhost", go "copy", fun _ => none, [], []⟩ ⟨none⟩).1.calls =
      [MgoCall.Dial (go "localhost"), MgoCall.Copy 7] :=
  ((MongoController.Begin_derives ⟨fun _ => ([], false), fun _ => .ok 7, fun s => s + 1,
        fun s => s + 2, fun s => s + 3⟩
      ⟨none, go "localhost", go "copy", fun _ => none, [], []⟩ ⟨none⟩ 7
      (Or.inr (Or.inl rfl)) (Or.inr ⟨rfl, rfl⟩)).2.2.2.1 rfl)

/-- C5: with no per-request session attached, `End` returns nil and changes
neither the process state (so it makes no driver call and `Session` is
untouched) nor the controller, in particular after a `Begin` whose dial failed;
with the per-request session `s` attached, `End` returns nil and its one driver
call is `Close` on `s`. -/
theorem MongoController.End_spec (w : State) (c : MongoController) :
    (c.MongoSession = none → MongoController.End w c = (w, c, none)) ∧
    (∀ env e, c.MongoSession = none → w.Session = none → env.Dial w.Dial = .error e →
      MongoController.End (MongoController.Begin env w c).1 (MongoController.Begin env w c).2.1 =
        ((MongoController.Begin env w c).1, c, none)) ∧
    (∀ s, c.MongoSession = some s →
      MongoController.End w c = ({ w with calls := w.calls ++ [MgoCall.Close s] }, c, none)) := by
  refine ⟨?_, ?_, ?_⟩
  · intro h
    simp [MongoController.End, h]
  · intro env e h hs hd
    simp [MongoController.End, MongoController.Begin, h, hs, hd]
  · intro s h
    simp [MongoController.End, h]

/-- Witness for C5, at a controller holding session 9. -/
theorem MongoController.End_spec_witness :
    (MongoController.End ⟨some 7, go "localhost", go "copy", fun _ => none, [], []⟩
      ⟨some 9⟩).2 = (⟨some 9⟩, none) ∧
    (MongoController.End ⟨some 7, go "localhost", go "copy", fun _ => none, [], []⟩
      ⟨some 9⟩).1.calls = [MgoCall.Close 9] :=
  ⟨congrArg Prod.snd
      ((MongoController.End_spec ⟨some 7, go "localhost", go "copy", fun _ => none, [], []⟩
        ⟨some 9⟩).2.2 9 rfl),
   congrArg (fun r => r.1.calls)
      ((MongoController.End_spec ⟨some 7, go "localhost", go "copy", fun _ => none, [], []⟩
        ⟨some 9⟩).2.2 9 rfl)⟩

end Revmgo
